import Mathlib

/-!
Verification of the aglabo-error-core design: a shallow embedding of the
AglaError base type (construction, causal chaining, serialization), the
ErrorSeverity validator and the context type guards, together with the
TestAglaError subclass override taken from
`src/__tests__/helpers/TestAglaError.class.ts`.

The repository ships only the test suite for the core type; the core
implementation (`shared/types/AglaError.types.ts`,
`shared/types/ErrorSeverity.types.ts`) is not among the provided source
files, so those definitions are modelled from the specification, with the
in-repo tests constraining every observable detail (e.g. the severity enum
runtime values must be the lowercase strings, since the tests require
`isValidErrorSeverity('FATAL')` and `isValidErrorSeverity('WARNING')` to be
false while the enum members themselves validate).
-/

/-- Platform date value, abstracted by the ISO-8601 rendering that
`Date.prototype.toISOString` would produce for it.  The calendar arithmetic
of the platform is not repository code; only the rendering is observed. -/
structure JSDate where
  isoString : String
deriving Repr, DecidableEq

/-- JavaScript number semantics relevant to the validators: a finite value
or one of the three non-finite values. -/
inductive JSNumber where
  | finite (i : Int)
  | nan
  | posInf
  | negInf
deriving Repr, DecidableEq

mutual
/-- A runtime JavaScript value, the domain of the `unknown`-typed
parameters of `chain`, `isValidErrorSeverity`, `isValidAglaErrorContext`
and `guardAglaErrorContext`. -/
inductive JSValue where
  | vNull
  | vUndefined
  | vBool (b : Bool)
  | vNumber (n : JSNumber)
  | vString (s : String)
  | vBigInt (i : Int)
  | vSymbol (id : Nat)
  | vFunction (id : Nat)
  | vDate (d : JSDate)
  | vError (name message stack : String)
  | vObject (fields : JSFields)
  | vArr (elems : JSList)

/-- Ordered fields of a plain JavaScript object. -/
inductive JSFields where
  | nil
  | cons (k : String) (v : JSValue) (rest : JSFields)

/-- Ordered elements of a JavaScript array. -/
inductive JSList where
  | nil
  | cons (v : JSValue) (rest : JSList)
end

/-- Property read on a plain object: the value of the first field named
`key`, if any. -/
def getField : JSFields → String → Option JSValue
  | .nil, _ => none
  | .cons k v rest, key => if k = key then some v else getField rest key

/-- Object-spread overlay of a single field, as in `\x7b...base, key: v\x7d`:
an existing field keeps its position but takes the new value, a fresh field
is appended. -/
def setField : JSFields → String → JSValue → JSFields
  | .nil, key, v => .cons key v .nil
  | .cons k v' rest, key, v =>
      if k = key then .cons k v rest else .cons k v' (setField rest key v)

/-- JSON escape of one character (the two escapes the embedding needs). -/
def jsonEscapeChar (ch : Char) : String :=
  if ch = '\\' then "\\\\" else if ch = '"' then "\\\"" else String.singleton ch

/-- JSON escape of a string, character by character. -/
def jsonEscape (s : String) : String := String.join (s.data.map jsonEscapeChar)

/-- JSON string quoting. -/
def jsonQuote (s : String) : String := "\"" ++ jsonEscape s ++ "\""

/-- JSON rendering of a number: non-finite values serialize as null. -/
def jsonNumber : JSNumber → String
  | .finite i => toString i
  | .nan => "null"
  | .posInf => "null"
  | .negInf => "null"

/-- Does `JSON.stringify` omit this value when it appears as an object
field? (undefined, functions and symbols are dropped from objects.) -/
def jsonOmitted : JSValue → Bool
  | .vUndefined => true
  | .vFunction _ => true
  | .vSymbol _ => true
  | _ => false

mutual
/-- `JSON.stringify` over the embedded value universe.  Dates render via
their ISO string (Date.toJSON); platform Error objects have no enumerable
own properties and render as the empty object.  (BigInt serialization,
which the platform rejects, is rendered as its decimal text here; no claim
exercises it.) -/
def jsonStringify : JSValue → String
  | .vNull => "null"
  | .vUndefined => "null"
  | .vBool b => if b then "true" else "false"
  | .vNumber n => jsonNumber n
  | .vString s => jsonQuote s
  | .vBigInt i => toString i
  | .vSymbol _ => "null"
  | .vFunction _ => "null"
  | .vDate d => jsonQuote d.isoString
  | .vError _ _ _ => "\x7b\x7d"
  | .vObject fs => "\x7b" ++ String.intercalate "," (jsonFields fs) ++ "\x7d"
  | .vArr es => "[" ++ String.intercalate "," (jsonElems es) ++ "]"

/-- Rendered `"key":value` pieces of an object, omitted fields dropped. -/
def jsonFields : JSFields → List String
  | .nil => []
  | .cons k v rest =>
      if jsonOmitted v then jsonFields rest
      else (jsonQuote k ++ ":" ++ jsonStringify v) :: jsonFields rest

/-- Rendered elements of an array (omitted-class values become null). -/
def jsonElems : JSList → List String
  | .nil => []
  | .cons v rest => jsonStringify v :: jsonElems rest
end

/-- Number-to-string conversion for template literals. -/
def jsDisplayNumber : JSNumber → String
  | .finite i => toString i
  | .nan => "NaN"
  | .posInf => "Infinity"
  | .negInf => "-Infinity"

mutual
/-- Template-literal string conversion (`String(v)`) for the values the
chaining algorithm may interpolate into a message. -/
def jsDisplay : JSValue → String
  | .vNull => "null"
  | .vUndefined => "undefined"
  | .vBool b => if b then "true" else "false"
  | .vNumber n => jsDisplayNumber n
  | .vString s => s
  | .vBigInt i => toString i
  | .vSymbol _ => "Symbol()"
  | .vFunction _ => "function () \x7b\x7d"
  | .vDate d => d.isoString
  | .vError name message _ => name ++ ": " ++ message
  | .vObject _ => "[object Object]"
  | .vArr es => jsDisplayElems es

/-- Array-to-string conversion: elements joined with commas. -/
def jsDisplayElems : JSList → String
  | .nil => ""
  | .cons v .nil => jsDisplay v
  | .cons v rest => jsDisplay v ++ "," ++ jsDisplayElems rest
end

/-- Modelled from the spec: the closed severity enumeration
(`shared/types/ErrorSeverity.types.ts` is not among the provided sources).
Canonical members FATAL, ERROR, WARNING, INFO; the runtime values are the
lowercase strings, forced by the tests, which reject the uppercase /
mixed-case strings as non-members. -/
inductive ErrorSeverity where
  | fatal
  | error
  | warning
  | info
deriving Repr, DecidableEq

/-- Runtime string value of a severity enum member. -/
def ErrorSeverity.value : ErrorSeverity → String
  | .fatal => "fatal"
  | .error => "error"
  | .warning => "warning"
  | .info => "info"

/-- The set of runtime values of the closed enumeration. -/
def errorSeverityValues : List String := ["fatal", "error", "warning", "info"]

/-- Modelled from the spec: `isValidErrorSeverity(value: unknown)` —
membership of an arbitrary runtime value in the closed enum value set
(`shared/types/ErrorSeverity.types.ts` is not among the provided sources).
Total, hence a pure predicate that never throws. -/
def isValidErrorSeverity : JSValue → Bool
  | .vString s => errorSeverityValues.contains s
  | _ => false

/-- Failure kinds signalled by the core (spec §7). -/
inductive AglaErrorKind where
  | invalidCause
  | invalidContext
deriving Repr, DecidableEq

/-- Modelled from the spec: `isValidAglaErrorContext(value: unknown)` —
true only for non-null, non-array, non-callable object values
(`shared/types/AglaError.types.ts` is not among the provided sources). -/
def isValidAglaErrorContext : JSValue → Bool
  | .vObject _ => true
  | .vError _ _ _ => true
  | .vDate _ => true
  | _ => false

/-- Modelled from the spec: `guardAglaErrorContext(value: unknown)` — the
asserting guard with the same acceptance rule as the predicate; a valid
value is returned unchanged (the very same value, no copy) and an invalid
one fails with kind InvalidContext. -/
def guardAglaErrorContext (v : JSValue) : Except AglaErrorKind JSValue :=
  if isValidAglaErrorContext v then .ok v else .error .invalidContext

/-- Modelled from the spec: the AglaError instance state.  `name` is the
concrete subclass name established at construction, `stack` the platform
stack snapshot; `code`, `severity` and `timestamp` are stored verbatim
without validation. -/
structure AglaError where
  name : String
  errorType : String
  message : String
  code : Option JSValue
  severity : Option JSValue
  timestamp : Option JSValue
  context : Option JSValue
  stack : Option String

/-- The recognized option-bundle keys (spec §4.3). -/
def recognizedKeys : List String := ["code", "severity", "timestamp", "context"]

/-- Structural detection of the options-bundle shape: the object carries at
least one recognized key. -/
def hasRecognizedKey (o : JSFields) : Bool :=
  recognizedKeys.any (fun k => (getField o k).isSome)

/-- An explicitly-undefined option value is observationally absent. -/
def noUndef : Option JSValue → Option JSValue
  | some .vUndefined => none
  | x => x

/-- Modelled platform stack snapshot taken at construction. -/
def defaultStack (className message : String) : String :=
  className ++ ": " ++ message ++ "\n    at <anonymous>"

/-- Modelled from the spec: the AglaError constructor
(`shared/types/AglaError.types.ts` is not among the provided sources).
`className` stands for the concrete subclass identity (`new.target`):
the helper subclasses in `src/__tests__/helpers/TestAglaError.class.ts`
pass their own names through.  An options object with any recognized key
is an options bundle; any other non-null object is the legacy bare
context (spec §3, §4.3). -/
def construct (className errorType message : String)
    (options : Option JSFields) : AglaError :=
  match options with
  | none =>
      { name := className, errorType := errorType, message := message,
        code := none, severity := none, timestamp := none, context := none,
        stack := some (defaultStack className message) }
  | some o =>
      if hasRecognizedKey o then
        { name := className, errorType := errorType, message := message,
          code := noUndef (getField o "code"),
          severity := noUndef (getField o "severity"),
          timestamp := noUndef (getField o "timestamp"),
          context := noUndef (getField o "context"),
          stack := some (defaultStack className message) }
      else
        { name := className, errorType := errorType, message := message,
          code := none, severity := none, timestamp := none,
          context := some (.vObject o),
          stack := some (defaultStack className message) }

/-- Is the cause a nullish value (rejected by `chain`)? -/
def isNullish : JSValue → Bool
  | .vNull => true
  | .vUndefined => true
  | _ => false

/-- The `message` property of a cause, when the cause exposes one:
platform Error objects and plain objects with a `message` field do,
primitives do not. -/
def causeMessageField : JSValue → Option JSValue
  | .vError _ message _ => some (.vString message)
  | .vObject fs => getField fs "message"
  | _ => none

/-- The display fragment extracted from a cause: its `message` property
rendered as text, or the literal token `undefined` when the cause exposes
none (spec §4.4 step 2). -/
def causeFragment (c : JSValue) : String :=
  match causeMessageField c with
  | some v => jsDisplay v
  | none => "undefined"

/-- Is the cause a genuine platform-Error-shaped value? -/
def isErrorShaped : JSValue → Bool
  | .vError _ _ _ => true
  | _ => false

/-- The `originalError` snapshot of an Error-shaped cause: its `name`,
`message` and `stack` (spec §4.4 step 4). -/
def errorSnapshot : JSValue → JSValue
  | .vError name message stack =>
      .vObject (.cons "name" (.vString name)
        (.cons "message" (.vString message)
          (.cons "stack" (.vString stack) .nil)))
  | _ => .vObject .nil

/-- The fields of the existing context, or the empty object when none
existed (spec §4.4 step 4). -/
def contextFields : Option JSValue → JSFields
  | some (.vObject o) => o
  | _ => .nil

/-- The merged context after chaining with cause `c`: the existing context
as base, the reserved key `cause` always overlaid with the cause's message
text, the reserved key `originalError` overlaid with the snapshot when the
cause is Error-shaped (spec §4.4 step 4). -/
def mergedContext (e : AglaError) (c : JSValue) : JSFields :=
  let base := contextFields e.context
  let withCause := setField base "cause" (.vString (causeFragment c))
  if isErrorShaped c then
    setField withCause "originalError" (errorSnapshot c)
  else withCause

/-- The in-place mutation performed by a successful chain call: the suffix
is appended to the current message and the context is merged; every other
field is untouched (spec §4.4 steps 3-5). -/
def chainMut (e : AglaError) (c : JSValue) : AglaError :=
  { e with
    message := e.message ++ " (caused by: " ++ causeFragment c ++ ")",
    context := some (.vObject (mergedContext e c)) }

/-- Modelled from the spec: `AglaError.chain(cause: unknown)`
(`shared/types/AglaError.types.ts` is not among the provided sources).
Fails with kind InvalidCause on a nullish cause; otherwise mutates the
instance in place and returns it (spec §4.4). -/
def AglaError.chain (e : AglaError) (c : JSValue) : Except AglaErrorKind AglaError :=
  if isNullish c then .error .invalidCause else .ok (chainMut e c)

/-- `TestAglaError.chain` from
`src/__tests__/helpers/TestAglaError.class.ts`: delegates to the base
chain, then applies the custom `[TEST] ` tag to the already-updated
message and returns the same instance. -/
def testChain (e : AglaError) (c : JSValue) : Except AglaErrorKind AglaError :=
  match AglaError.chain e c with
  | .error k => .error k
  | .ok e' => .ok { e' with message := "[TEST] " ++ e'.message }

/-- A sequence of base chain calls, each operating on the state left by
the previous one. -/
def chainAll (e : AglaError) : List JSValue → Except AglaErrorKind AglaError
  | [] => .ok e
  | c :: cs =>
      match AglaError.chain e c with
      | .error k => .error k
      | .ok e' => chainAll e' cs

/-- A sequence of TestAglaError chain calls. -/
def testChainAll (e : AglaError) : List JSValue → Except AglaErrorKind AglaError
  | [] => .ok e
  | c :: cs =>
      match testChain e c with
      | .error k => .error k
      | .ok e' => testChainAll e' cs

/-- Serialization of a stored timestamp: a date value renders as its
ISO-8601 string form (spec §4.5). -/
def isoDateValue : JSValue → JSValue
  | .vDate d => .vString d.isoString
  | v => v

/-- Prepend a field only when the value is present. -/
def optField (k : String) : Option JSValue → JSFields → JSFields
  | some v, rest => .cons k v rest
  | none, rest => rest

/-- Modelled from the spec: `AglaError.toJSON()`
(`shared/types/AglaError.types.ts` is not among the provided sources).
`errorType` and `message` always; `code`, `severity`, `timestamp`,
`context` only when defined; a present timestamp renders as its ISO-8601
string form; the context value is embedded by reference (spec §4.5). -/
def AglaError.toJSON (e : AglaError) : JSFields :=
  .cons "errorType" (.vString e.errorType)
    (.cons "message" (.vString e.message)
      (optField "code" e.code
        (optField "severity" e.severity
          (optField "timestamp" (e.timestamp.map isoDateValue)
            (optField "context" e.context .nil)))))

/-- Modelled from the spec: `AglaError.toString()`
(`shared/types/AglaError.types.ts` is not among the provided sources).
`"<errorType>: <message>"`, then a single space and the JSON text of the
context only when a context is present (spec §4.5). -/
def AglaError.toString (e : AglaError) : String :=
  match e.context with
  | some ctx => e.errorType ++ ": " ++ e.message ++ " " ++ jsonStringify ctx
  | none => e.errorType ++ ": " ++ e.message

/-- The prototype chain of an instance constructed with class name `c`:
the concrete class, the abstract AglaError base, the platform Error type
and Object. -/
def classAncestry (c : String) : List String :=
  [c, "AglaError", "Error", "Object"]

/-- instanceof on the embedded class model. -/
def AglaError.instanceOf (e : AglaError) (cls : String) : Bool :=
  (classAncestry e.name).contains cls

/-- Overlaying a field makes that field's value the overlaid one. -/
theorem getField_setField_self (o : JSFields) (k : String) (v : JSValue) :
    getField (setField o k v) k = some v := by
  match o with
  | .nil => simp [setField, getField]
  | .cons k' v' rest =>
      by_cases h : k' = k
      · subst h; simp [setField, getField]
      · simp [setField, getField, h, getField_setField_self rest k v]

/-- Overlaying a field leaves every other field's value unchanged. -/
theorem getField_setField_of_ne (o : JSFields) (k key : String) (v : JSValue)
    (h : key ≠ k) : getField (setField o k v) key = getField o key := by
  match o with
  | .nil => simp [setField, getField, Ne.symm h]
  | .cons k' v' rest =>
      by_cases hk : k' = k
      · subst hk; simp [setField, getField, Ne.symm h]
      · simp only [setField, getField, if_neg hk]
        split <;> simp [getField_setField_of_ne rest k key v h]

/-- A chain call succeeds exactly on non-nullish causes, and then performs
the single in-place mutation. -/
theorem chain_eq_ok_iff {e e' : AglaError} {c : JSValue} :
    AglaError.chain e c = .ok e' ↔ (isNullish c = false ∧ chainMut e c = e') := by
  cases hc : isNullish c <;> simp [AglaError.chain, hc]

/-- A chain call fails (with kind InvalidCause) exactly on nullish causes. -/
theorem chain_eq_error_iff {e : AglaError} {c : JSValue} :
    AglaError.chain e c = .error .invalidCause ↔ isNullish c = true := by
  cases hc : isNullish c <;> simp [AglaError.chain, hc]

/-- The nullish values are exactly null and undefined. -/
theorem isNullish_iff {c : JSValue} :
    isNullish c = true ↔ (c = .vNull ∨ c = .vUndefined) := by
  cases c <;> simp [isNullish]

/-- All fields other than message and context survive one mutation. -/
theorem chainMut_frame (e : AglaError) (c : JSValue) :
    (chainMut e c).errorType = e.errorType ∧ (chainMut e c).code = e.code
    ∧ (chainMut e c).severity = e.severity
    ∧ (chainMut e c).timestamp = e.timestamp
    ∧ (chainMut e c).name = e.name ∧ (chainMut e c).stack = e.stack :=
  ⟨rfl, rfl, rfl, rfl, rfl, rfl⟩

/-- Claim C7: `isValidErrorSeverity` accepts exactly the closed enum
members (runtime values of FATAL, ERROR, WARNING, INFO) and rejects the
empty string, whitespace-only strings, case variants of the member names,
the numeric strings "0", "1", "-1", symbols, big integers, NaN and both
signed infinities; as a total function it is a pure predicate that never
throws. -/
theorem claim_C7_isValidErrorSeverity_closed_membership :
    (∀ s : ErrorSeverity, isValidErrorSeverity (.vString s.value) = true)
  ∧ (∀ v : JSValue, isValidErrorSeverity v = true →
        (v = .vString "fatal" ∨ v = .vString "error"
          ∨ v = .vString "warning" ∨ v = .vString "info"))
  ∧ isValidErrorSeverity (.vString "") = false
  ∧ isValidErrorSeverity (.vString " ") = false
  ∧ isValidErrorSeverity (.vString "\t") = false
  ∧ isValidErrorSeverity (.vString "\n") = false
  ∧ isValidErrorSeverity (.vString "FATAL") = false
  ∧ isValidErrorSeverity (.vString "Error") = false
  ∧ isValidErrorSeverity (.vString "WARNING") = false
  ∧ isValidErrorSeverity (.vString "Info") = false
  ∧ isValidErrorSeverity (.vString "0") = false
  ∧ isValidErrorSeverity (.vString "1") = false
  ∧ isValidErrorSeverity (.vString "-1") = false
  ∧ (∀ id, isValidErrorSeverity (.vSymbol id) = false)
  ∧ (∀ i, isValidErrorSeverity (.vBigInt i) = false)
  ∧ isValidErrorSeverity (.vNumber .nan) = false
  ∧ isValidErrorSeverity (.vNumber .posInf) = false
  ∧ isValidErrorSeverity (.vNumber .negInf) = false := by
  refine ⟨?_, ?_, ?_, ?_, ?_, ?_, ?_, ?_, ?_, ?_, ?_, ?_, ?_, ?_, ?_, ?_, ?_, ?_⟩
  · intro s; cases s <;> decide
  · intro v h
    cases v <;> simp [isValidErrorSeverity] at h
    rename_i s
    simp [errorSeverityValues, List.contains, List.any, Bool.or_eq_true,
      beq_iff_eq] at h
    rcases h with h | h | h | h <;> simp [h]
  all_goals first | decide | (intro x; rfl)

/-- Claim C7 witness: application of the membership direction at the
concrete member value "fatal". -/
theorem claim_C7_witness :
    (JSValue.vString "fatal" = JSValue.vString "fatal"
      ∨ JSValue.vString "fatal" = JSValue.vString "error"
      ∨ JSValue.vString "fatal" = JSValue.vString "warning"
      ∨ JSValue.vString "fatal" = JSValue.vString "info") :=
  claim_C7_isValidErrorSeverity_closed_membership.2.1 (.vString "fatal") rfl

/-- Claim C9: `isValidAglaErrorContext` accepts exactly the non-null
object values (the empty object included) and rejects null, undefined,
string/number/boolean/bigint/symbol primitives and callables;
`guardAglaErrorContext` accepts the same values, returns the very same
value on success and fails with kind InvalidContext on every invalid
value instead of returning a sentinel. -/
theorem claim_C9_context_guards_agree :
    (∀ o, isValidAglaErrorContext (.vObject o) = true)
  ∧ isValidAglaErrorContext (.vObject .nil) = true
  ∧ isValidAglaErrorContext .vNull = false
  ∧ isValidAglaErrorContext .vUndefined = false
  ∧ (∀ s, isValidAglaErrorContext (.vString s) = false)
  ∧ (∀ n, isValidAglaErrorContext (.vNumber n) = false)
  ∧ (∀ b, isValidAglaErrorContext (.vBool b) = false)
  ∧ (∀ i, isValidAglaErrorContext (.vBigInt i) = false)
  ∧ (∀ id, isValidAglaErrorContext (.vSymbol id) = false)
  ∧ (∀ id, isValidAglaErrorContext (.vFunction id) = false)
  ∧ (∀ v, isValidAglaErrorContext v = true → guardAglaErrorContext v = .ok v)
  ∧ (∀ v, isValidAglaErrorContext v = false →
        guardAglaErrorContext v = .error .invalidContext) := by
  refine ⟨fun _ => rfl, rfl, rfl, rfl, fun _ => rfl, fun _ => rfl, fun _ => rfl,
    fun _ => rfl, fun _ => rfl, fun _ => rfl, ?_, ?_⟩
  · intro v h; simp [guardAglaErrorContext, h]
  · intro v h; simp [guardAglaErrorContext, h]

/-- Claim C9 witness: the guard at the concrete one-field object and at
null, hypotheses discharged by evaluation. -/
theorem claim_C9_witness :
    guardAglaErrorContext (.vObject (.cons "k" (.vString "v") .nil))
      = .ok (.vObject (.cons "k" (.vString "v") .nil))
  ∧ guardAglaErrorContext .vNull = .error .invalidContext :=
  ⟨claim_C9_context_guards_agree.2.2.2.2.2.2.2.2.2.2.1
      (.vObject (.cons "k" (.vString "v") .nil)) rfl,
    claim_C9_context_guards_agree.2.2.2.2.2.2.2.2.2.2.2 .vNull rfl⟩

/-- The deterministic suffix appended by one chain call (spec §4.4 step 3). -/
def causeSuffix (c : JSValue) : String :=
  " (caused by: " ++ causeFragment c ++ ")"

/-- One chain call appends exactly the cause suffix to the current
message. -/
theorem chainMut_message (e : AglaError) (c : JSValue) :
    (chainMut e c).message = e.message ++ causeSuffix c := by
  simp [chainMut, causeSuffix, String.append_assoc]

/-- The mutation performed by a successful TestAglaError chain call:
the base mutation, then the custom tag on the already-updated message. -/
def testMut (e : AglaError) (c : JSValue) : AglaError :=
  { chainMut e c with message := "[TEST] " ++ (chainMut e c).message }

/-- A TestAglaError chain call succeeds exactly on non-nullish causes,
performing the base mutation plus the tag. -/
theorem testChain_eq_ok_iff {e e' : AglaError} {c : JSValue} :
    testChain e c = .ok e' ↔ (isNullish c = false ∧ testMut e c = e') := by
  cases hc : isNullish c <;> simp [testChain, AglaError.chain, hc, testMut]

/-- A concrete error instance used by the closed witness statements. -/
def sampleError : AglaError :=
  construct "TestAglaError" "TEST_ERROR" "Original message" none

/-- A concrete Error-shaped cause used by the closed witness statements. -/
def sampleCause : JSValue := .vError "Error" "Cause message" "stack-snapshot"

/-- A second concrete Error-shaped cause. -/
def sampleCause2 : JSValue := .vError "Error" "Level 2" "stack-snapshot-2"

/-- Claim C3: chain fails with kind InvalidCause exactly on null and
undefined causes; every other cause succeeds, appending the cause's
`message` property when it exposes one (a plain object with a `message`
field included) and the literal token `undefined` when it does not (a
string cause included). -/
theorem claim_C3_chain_nullish_failure_and_lenient_success :
    (∀ (e : AglaError) (c : JSValue),
      AglaError.chain e c = .error .invalidCause ↔ (c = .vNull ∨ c = .vUndefined))
  ∧ (∀ (e : AglaError) (c : JSValue), isNullish c = false →
      AglaError.chain e c = .ok (chainMut e c))
  ∧ (∀ (e : AglaError) (o : JSFields) (x : String),
      getField o "message" = some (.vString x) →
      ∃ e', AglaError.chain e (.vObject o) = .ok e'
        ∧ e'.message = e.message ++ " (caused by: " ++ x ++ ")")
  ∧ (∀ (e : AglaError) (c : JSValue), isNullish c = false →
      causeMessageField c = none →
      ∃ e', AglaError.chain e c = .ok e'
        ∧ e'.message = e.message ++ " (caused by: " ++ "undefined" ++ ")") := by
  refine ⟨?_, ?_, ?_, ?_⟩
  · intro e c
    rw [chain_eq_error_iff]
    exact isNullish_iff
  · intro e c h
    simp [AglaError.chain, h]
  · intro e o x h
    refine ⟨chainMut e (.vObject o), by simp [AglaError.chain, isNullish], ?_⟩
    simp [chainMut, causeFragment, causeMessageField, h, jsDisplay]
  · intro e c hn hm
    refine ⟨chainMut e c, by simp [AglaError.chain, hn], ?_⟩
    simp [chainMut, causeFragment, hm]

/-- Claim C3 witness: the three behaviours at concrete inputs — a null
cause fails, a plain `(message: x)` object appends `x`, and a string
cause appends the literal token undefined. -/
theorem claim_C3_witness :
    (AglaError.chain sampleError .vNull = .error .invalidCause)
  ∧ (∃ e', AglaError.chain sampleError
        (.vObject (.cons "message" (.vString "x") .nil)) = .ok e'
      ∧ e'.message = sampleError.message ++ " (caused by: " ++ "x" ++ ")")
  ∧ (∃ e', AglaError.chain sampleError (.vString "string error") = .ok e'
      ∧ e'.message
          = sampleError.message ++ " (caused by: " ++ "undefined" ++ ")") :=
  ⟨(claim_C3_chain_nullish_failure_and_lenient_success.1 sampleError .vNull).mpr
      (Or.inl rfl),
    claim_C3_chain_nullish_failure_and_lenient_success.2.2.1 sampleError
      (.cons "message" (.vString "x") .nil) "x" rfl,
    claim_C3_chain_nullish_failure_and_lenient_success.2.2.2 sampleError
      (.vString "string error") rfl rfl⟩

/-- Claim C1: chaining twice in sequence appends one suffix per call, in
call order — the resulting message is the call-time message followed by
`" (caused by: m1)"` then `" (caused by: m2)"`, hence ends in the two
suffixes in order; the same ending holds through the TestAglaError
override, which tags the front of the message but keeps both appended
suffixes in call order at the end. -/
theorem claim_C1_double_chain_appends_suffixes_in_order :
    (∀ (e e1 e2 : AglaError) (c1 c2 : JSValue),
      AglaError.chain e c1 = .ok e1 → AglaError.chain e1 c2 = .ok e2 →
      e2.message = e.message ++ causeSuffix c1 ++ causeSuffix c2
        ∧ ∃ p, e2.message = p ++ (causeSuffix c1 ++ causeSuffix c2))
  ∧ (∀ (e e1 e2 : AglaError) (c1 c2 : JSValue),
      testChain e c1 = .ok e1 → testChain e1 c2 = .ok e2 →
      ∃ p, e2.message = p ++ (causeSuffix c1 ++ causeSuffix c2)) := by
  constructor
  · intro e e1 e2 c1 c2 h1 h2
    obtain ⟨-, h1⟩ := chain_eq_ok_iff.mp h1
    obtain ⟨-, h2⟩ := chain_eq_ok_iff.mp h2
    subst h1; subst h2
    rw [chainMut_message, chainMut_message]
    exact ⟨by rw [String.append_assoc], e.message, by rw [String.append_assoc]⟩
  · intro e e1 e2 c1 c2 h1 h2
    obtain ⟨-, h1⟩ := testChain_eq_ok_iff.mp h1
    obtain ⟨-, h2⟩ := testChain_eq_ok_iff.mp h2
    subst h1; subst h2
    refine ⟨"[TEST] " ++ ("[TEST] " ++ e.message), ?_⟩
    simp only [testMut, chainMut_message]
    simp [String.append_assoc]

/-- Claim C1 witness: the base double chain at concrete causes, both
hypotheses discharged by evaluation. -/
theorem claim_C1_witness :
    (chainMut (chainMut sampleError sampleCause) sampleCause2).message
      = sampleError.message ++ causeSuffix sampleCause ++ causeSuffix sampleCause2
    ∧ ∃ p, (chainMut (chainMut sampleError sampleCause) sampleCause2).message
        = p ++ (causeSuffix sampleCause ++ causeSuffix sampleCause2) :=
  claim_C1_double_chain_appends_suffixes_in_order.1 sampleError
    (chainMut sampleError sampleCause)
    (chainMut (chainMut sampleError sampleCause) sampleCause2)
    sampleCause sampleCause2 rfl rfl

/-- Claim C2: a successful chain call produces a context whose base is
every key/value of the pre-existing context (or the empty object when none
existed) — user keys keep their prior values — overlaid with the reserved
key `cause` (the cause's extracted message text, the string form of
undefined when the cause exposes none) and, for a genuine Error-shaped
cause, the reserved key `originalError` holding the name/message/stack
snapshot; the reserved keys are overwritten on every call even if
previously set, since their merged values do not depend on the prior
context. -/
theorem claim_C2_chain_merges_context :
    ∀ (e e' : AglaError) (c : JSValue),
      AglaError.chain e c = .ok e' →
      ∃ ctx : JSFields, e'.context = some (.vObject ctx)
        ∧ (∀ k, k ≠ "cause" → k ≠ "originalError" →
            getField ctx k = getField (contextFields e.context) k)
        ∧ getField ctx "cause" = some (.vString (causeFragment c))
        ∧ (∀ n m s, c = .vError n m s →
            causeFragment c = m ∧ getField ctx "originalError" = some (errorSnapshot c))
        ∧ (causeMessageField c = none → causeFragment c = "undefined") := by
  intro e e' c h
  obtain ⟨hn, h⟩ := chain_eq_ok_iff.mp h
  subst h
  refine ⟨mergedContext e c, rfl, ?_, ?_, ?_, ?_⟩
  · intro k hk1 hk2
    simp only [mergedContext]
    split
    · rw [getField_setField_of_ne _ _ _ _ hk2, getField_setField_of_ne _ _ _ _ hk1]
    · rw [getField_setField_of_ne _ _ _ _ hk1]
  · simp only [mergedContext]
    split
    · rw [getField_setField_of_ne _ _ _ _ (by decide : ("cause" : String) ≠ "originalError")]
      exact getField_setField_self _ _ _
    · exact getField_setField_self _ _ _
  · intro n m s hc
    subst hc
    refine ⟨rfl, ?_⟩
    simp only [mergedContext, isErrorShaped, if_true]
    exact getField_setField_self _ _ _
  · intro hm
    simp [causeFragment, hm]

/-- Claim C2 witness: the merged context of a concrete chain call carries
the cause's message under the reserved key. -/
theorem claim_C2_witness :
    ∃ ctx : JSFields,
      (chainMut sampleError sampleCause).context = some (.vObject ctx)
      ∧ getField ctx "cause" = some (.vString (causeFragment sampleCause)) := by
  obtain ⟨ctx, h1, -, h3, -, -⟩ :=
    claim_C2_chain_merges_context sampleError (chainMut sampleError sampleCause)
      sampleCause rfl
  exact ⟨ctx, h1, h3⟩

/-- Any number of successful base chain calls leaves the six fields other
than message and context unchanged. -/
theorem chainAll_frame (e e' : AglaError) (cs : List JSValue)
    (h : chainAll e cs = .ok e') :
    e'.errorType = e.errorType ∧ e'.code = e.code ∧ e'.severity = e.severity
    ∧ e'.timestamp = e.timestamp ∧ e'.name = e.name ∧ e'.stack = e.stack := by
  induction cs generalizing e with
  | nil =>
      simp only [chainAll] at h
      cases h
      exact ⟨rfl, rfl, rfl, rfl, rfl, rfl⟩
  | cons c cs ih =>
      simp only [chainAll] at h
      cases hc : AglaError.chain e c with
      | error k => rw [hc] at h; cases h
      | ok e1 =>
          rw [hc] at h
          obtain ⟨h1, h2, h3, h4, h5, h6⟩ := ih e1 h
          obtain ⟨-, hm⟩ := chain_eq_ok_iff.mp hc
          subst hm
          exact ⟨h1, h2, h3, h4, h5, h6⟩

/-- Any number of successful TestAglaError chain calls leaves the six
fields other than message and context unchanged. -/
theorem testChainAll_frame (e e' : AglaError) (cs : List JSValue)
    (h : testChainAll e cs = .ok e') :
    e'.errorType = e.errorType ∧ e'.code = e.code ∧ e'.severity = e.severity
    ∧ e'.timestamp = e.timestamp ∧ e'.name = e.name ∧ e'.stack = e.stack := by
  induction cs generalizing e with
  | nil =>
      simp only [testChainAll] at h
      cases h
      exact ⟨rfl, rfl, rfl, rfl, rfl, rfl⟩
  | cons c cs ih =>
      simp only [testChainAll] at h
      cases hc : testChain e c with
      | error k => rw [hc] at h; cases h
      | ok e1 =>
          rw [hc] at h
          obtain ⟨h1, h2, h3, h4, h5, h6⟩ := ih e1 h
          obtain ⟨-, hm⟩ := testChain_eq_ok_iff.mp hc
          subst hm
          exact ⟨h1, h2, h3, h4, h5, h6⟩

/-- Claim C4: chain returns the very same mutated instance — a successful
call yields exactly the in-place update of message and context — and any
number of successful chain calls, through the base method or the
TestAglaError override delegating to it, leaves errorType, code, severity,
timestamp, name and stack unchanged. -/
theorem claim_C4_chain_returns_self_and_preserves_fields :
    (∀ (e e' : AglaError) (c : JSValue),
      AglaError.chain e c = .ok e' → e' = chainMut e c)
  ∧ (∀ (e e' : AglaError) (cs : List JSValue), chainAll e cs = .ok e' →
      e'.errorType = e.errorType ∧ e'.code = e.code ∧ e'.severity = e.severity
      ∧ e'.timestamp = e.timestamp ∧ e'.name = e.name ∧ e'.stack = e.stack)
  ∧ (∀ (e e' : AglaError) (cs : List JSValue), testChainAll e cs = .ok e' →
      e'.errorType = e.errorType ∧ e'.code = e.code ∧ e'.severity = e.severity
      ∧ e'.timestamp = e.timestamp ∧ e'.name = e.name ∧ e'.stack = e.stack) :=
  ⟨fun _ _ _ h => (chain_eq_ok_iff.mp h).2.symm,
    chainAll_frame, testChainAll_frame⟩

/-- Claim C4 witness: two successful chain calls at concrete causes leave
the six identity fields of the sample error unchanged. -/
theorem claim_C4_witness :
    (chainMut (chainMut sampleError sampleCause) sampleCause2).errorType
        = sampleError.errorType
    ∧ (chainMut (chainMut sampleError sampleCause) sampleCause2).code
        = sampleError.code
    ∧ (chainMut (chainMut sampleError sampleCause) sampleCause2).severity
        = sampleError.severity
    ∧ (chainMut (chainMut sampleError sampleCause) sampleCause2).timestamp
        = sampleError.timestamp
    ∧ (chainMut (chainMut sampleError sampleCause) sampleCause2).name
        = sampleError.name
    ∧ (chainMut (chainMut sampleError sampleCause) sampleCause2).stack
        = sampleError.stack :=
  claim_C4_chain_returns_self_and_preserves_fields.2.1 sampleError
    (chainMut (chainMut sampleError sampleCause) sampleCause2)
    [sampleCause, sampleCause2] rfl

/-- Every instance is an instance of the platform Error type: the
ancestry of any concrete class name contains "Error". -/
theorem instanceOf_error (e : AglaError) : e.instanceOf "Error" = true := by
  simp [AglaError.instanceOf, classAncestry]

/-- The constructor always sets the derived name to the concrete class
name and always captures a stack snapshot. -/
theorem construct_name_stack (className errorType message : String)
    (options : Option JSFields) :
    (construct className errorType message options).name = className
    ∧ (construct className errorType message options).stack
        = some (defaultStack className message) := by
  cases options with
  | none => exact ⟨rfl, rfl⟩
  | some o =>
      by_cases h : hasRecognizedKey o = true
      · simp [construct, h]
      · simp [construct, h]

/-- Claim C5: toJSON always contains errorType and message; it contains
code, severity, timestamp and context exactly when the corresponding field
is defined (absent fields are omitted, never emitted as null); a present
timestamp is rendered as its ISO-8601 string form; and an error
constructed from (errorType, message) alone serializes to exactly the
two-field object. -/
theorem claim_C5_toJSON_key_presence_policy :
    (∀ e : AglaError,
      getField (AglaError.toJSON e) "errorType" = some (.vString e.errorType)
      ∧ getField (AglaError.toJSON e) "message" = some (.vString e.message)
      ∧ getField (AglaError.toJSON e) "code" = e.code
      ∧ getField (AglaError.toJSON e) "severity" = e.severity
      ∧ getField (AglaError.toJSON e) "timestamp" = e.timestamp.map isoDateValue
      ∧ getField (AglaError.toJSON e) "context" = e.context
      ∧ (∀ d, e.timestamp = some (.vDate d) →
          getField (AglaError.toJSON e) "timestamp" = some (.vString d.isoString)))
  ∧ (∀ className errorType message,
      AglaError.toJSON (construct className errorType message none)
        = .cons "errorType" (.vString errorType)
            (.cons "message" (.vString message) .nil)) := by
  constructor
  · intro e
    refine ⟨?_, ?_, ?_, ?_, ?_, ?_, ?_⟩
    · simp [AglaError.toJSON, getField]
    · simp [AglaError.toJSON, getField]
    · rcases hc : e.code with - | cv <;>
        rcases hs : e.severity with - | sv <;>
          rcases ht : e.timestamp with - | tv <;>
            rcases hx : e.context with - | xv <;>
              simp [AglaError.toJSON, optField, getField, hc, hs, ht, hx]
    · rcases hc : e.code with - | cv <;>
        rcases hs : e.severity with - | sv <;>
          rcases ht : e.timestamp with - | tv <;>
            rcases hx : e.context with - | xv <;>
              simp [AglaError.toJSON, optField, getField, hc, hs, ht, hx]
    · rcases hc : e.code with - | cv <;>
        rcases hs : e.severity with - | sv <;>
          rcases ht : e.timestamp with - | tv <;>
            rcases hx : e.context with - | xv <;>
              simp [AglaError.toJSON, optField, getField, hc, hs, ht, hx]
    · rcases hc : e.code with - | cv <;>
        rcases hs : e.severity with - | sv <;>
          rcases ht : e.timestamp with - | tv <;>
            rcases hx : e.context with - | xv <;>
              simp [AglaError.toJSON, optField, getField, hc, hs, ht, hx]
    · intro d hd
      rcases hc : e.code with - | cv <;>
        rcases hs : e.severity with - | sv <;>
          rcases hx : e.context with - | xv <;>
            simp [AglaError.toJSON, optField, getField, hc, hs, hd, hx, isoDateValue]
  · intro className errorType message
    rfl

/-- A concrete timestamp used by the closed witness statements. -/
def sampleTimestamp : JSDate := ⟨"2025-08-29T21:42:00.000Z"⟩

/-- A concrete error carrying only a timestamp option. -/
def sampleTSError : AglaError :=
  construct "TestAglaError" "TEST_ERROR" "Test message"
    (some (.cons "timestamp" (.vDate sampleTimestamp) .nil))

/-- Claim C5 witness: the ISO rendering of a concrete present timestamp,
and the exact two-field serialization of a minimal construction. -/
theorem claim_C5_witness :
    getField (AglaError.toJSON sampleTSError) "timestamp"
      = some (.vString sampleTimestamp.isoString)
  ∧ AglaError.toJSON (construct "TestAglaError" "TEST_ERROR" "Test message" none)
      = .cons "errorType" (.vString "TEST_ERROR")
          (.cons "message" (.vString "Test message") .nil) :=
  ⟨(claim_C5_toJSON_key_presence_policy.1 sampleTSError).2.2.2.2.2.2
      sampleTimestamp rfl,
    claim_C5_toJSON_key_presence_policy.2 "TestAglaError" "TEST_ERROR"
      "Test message"⟩

/-- Claim C6: toString is exactly the colon-joined pair when no context
exists, and exactly the pair followed by one space and the JSON text of
the context when one is present. -/
theorem claim_C6_toString_format :
    ∀ e : AglaError,
      (e.context = none →
        AglaError.toString e = e.errorType ++ ": " ++ e.message)
      ∧ (∀ ctxv, e.context = some ctxv →
          AglaError.toString e
            = e.errorType ++ ": " ++ e.message ++ " " ++ jsonStringify ctxv) := by
  intro e
  constructor
  · intro h
    simp [AglaError.toString, h]
  · intro ctxv h
    simp [AglaError.toString, h]

/-- A concrete context object used by the closed witness statements. -/
def sampleContext : JSFields := .cons "userId" (.vString "123") .nil

/-- A concrete error carrying a context. -/
def sampleCtxError : AglaError :=
  construct "TestAglaError" "TEST_ERROR" "Test message"
    (some (.cons "context" (.vObject sampleContext) .nil))

/-- Claim C6 witness: the two formats at concrete errors with and without
a context. -/
theorem claim_C6_witness :
    AglaError.toString sampleCtxError
      = sampleCtxError.errorType ++ ": " ++ sampleCtxError.message ++ " "
          ++ jsonStringify (.vObject sampleContext)
  ∧ AglaError.toString sampleError
      = sampleError.errorType ++ ": " ++ sampleError.message :=
  ⟨(claim_C6_toString_format sampleCtxError).2 (.vObject sampleContext) rfl,
    (claim_C6_toString_format sampleError).1 rfl⟩

/-- Claim C8: an options object carrying none of the recognized keys is
treated entirely as the legacy bare context — it becomes the context and
code, severity and timestamp stay unset — while an object carrying any
recognized key is treated as the options bundle, each recognized field
read from its key. -/
theorem claim_C8_legacy_bare_context_detection :
    ∀ (className errorType message : String) (o : JSFields),
      (hasRecognizedKey o = false →
        (construct className errorType message (some o)).context
            = some (.vObject o)
        ∧ (construct className errorType message (some o)).code = none
        ∧ (construct className errorType message (some o)).severity = none
        ∧ (construct className errorType message (some o)).timestamp = none)
      ∧ (hasRecognizedKey o = true →
        (construct className errorType message (some o)).code
            = noUndef (getField o "code")
        ∧ (construct className errorType message (some o)).severity
            = noUndef (getField o "severity")
        ∧ (construct className errorType message (some o)).timestamp
            = noUndef (getField o "timestamp")
        ∧ (construct className errorType message (some o)).context
            = noUndef (getField o "context")) := by
  intro className errorType message o
  constructor
  · intro h
    simp [construct, h]
  · intro h
    simp [construct, h]

/-- A concrete legacy bare context object (no recognized keys). -/
def legacyContext : JSFields :=
  .cons "userId" (.vString "123") (.cons "operation" (.vString "legacy") .nil)

/-- Claim C8 witness: the legacy object at a concrete construction — it
lands wholesale in context and leaves code/severity/timestamp unset. -/
theorem claim_C8_witness :
    (construct "TestAglaError" "TEST_ERROR" "Test message"
        (some legacyContext)).context = some (.vObject legacyContext)
    ∧ (construct "TestAglaError" "TEST_ERROR" "Test message"
        (some legacyContext)).code = none
    ∧ (construct "TestAglaError" "TEST_ERROR" "Test message"
        (some legacyContext)).severity = none
    ∧ (construct "TestAglaError" "TEST_ERROR" "Test message"
        (some legacyContext)).timestamp = none :=
  (claim_C8_legacy_bare_context_detection "TestAglaError" "TEST_ERROR"
    "Test message" legacyContext).1 rfl

/-- Claim C10: every constructed instance is an instance of the platform
Error type (its prototype ancestry contains Error, so it can appear in
mixed collections and be narrowed), its name equals the concrete
subclass's class name, its stack is defined, and all three remain so after
any number of chain calls through the base method or the TestAglaError
override. -/
theorem claim_C10_error_inheritance_name_stack :
    ∀ (className errorType message : String) (options : Option JSFields),
      (construct className errorType message options).instanceOf "Error" = true
      ∧ (construct className errorType message options).name = className
      ∧ (construct className errorType message options).stack.isSome = true
      ∧ (∀ (cs : List JSValue) (e' : AglaError),
          chainAll (construct className errorType message options) cs = .ok e' →
          e'.instanceOf "Error" = true ∧ e'.name = className
            ∧ e'.stack.isSome = true)
      ∧ (∀ (cs : List JSValue) (e' : AglaError),
          testChainAll (construct className errorType message options) cs
              = .ok e' →
          e'.instanceOf "Error" = true ∧ e'.name = className
            ∧ e'.stack.isSome = true) := by
  intro className errorType message options
  obtain ⟨hname, hstack⟩ :=
    construct_name_stack className errorType message options
  refine ⟨instanceOf_error _, hname, by rw [hstack]; rfl, ?_, ?_⟩
  · intro cs e' h
    obtain ⟨-, -, -, -, h5, h6⟩ := chainAll_frame _ e' cs h
    exact ⟨instanceOf_error _, h5.trans hname, by rw [h6, hstack]; rfl⟩
  · intro cs e' h
    obtain ⟨-, -, -, -, h5, h6⟩ := testChainAll_frame _ e' cs h
    exact ⟨instanceOf_error _, h5.trans hname, by rw [h6, hstack]; rfl⟩

/-- Claim C10 witness: the concrete sample error after one concrete chain
call is still Error-shaped, keeps its class name and keeps its stack. -/
theorem claim_C10_witness :
    (chainMut sampleError sampleCause).instanceOf "Error" = true
    ∧ (chainMut sampleError sampleCause).name = "TestAglaError"
    ∧ (chainMut sampleError sampleCause).stack.isSome = true :=
  (claim_C10_error_inheritance_name_stack "TestAglaError" "TEST_ERROR"
      "Original message" none).2.2.2.1 [sampleCause]
    (chainMut sampleError sampleCause) rfl
